import Mathlib

/-!
Verification of the Period & Recurrence Engine of the BudgetingApp repository:
period boundaries, rollover accumulation, recurrence advancement and schedule
projection, as described by the repository documentation (ROLLOVER system doc,
BUGFIX-rollover-routes.md) and the engine specification.

Dollar amounts (floats in the application) are embedded as exact integers (every documented monetary scenario is in whole dollars); dates as
year/month/day triples over the proleptic Gregorian calendar.
-/

namespace BudgetingApp

/-- Gregorian leap-year test. -/
def isLeapYear (y : Nat) : Bool :=
  y % 4 == 0 && (y % 100 != 0 || y % 400 == 0)

/-- Number of days in month `m` (1–12) of year `y`. -/
def daysInMonth (y m : Nat) : Nat :=
  if m = 2 then (if isLeapYear y then 29 else 28)
  else if m = 4 ∨ m = 6 ∨ m = 9 ∨ m = 11 then 30
  else 31

/-- A calendar date. -/
structure Date where
  year : Nat
  month : Nat
  day : Nat
deriving DecidableEq

/-- Clamp a nominal day-of-month to the actual length of month `m` of year `y`. -/
def clampDay (d y m : Nat) : Nat :=
  min d (daysInMonth y m)

/-- Add `k` calendar months to the month `m` (1–12) of year `y`. -/
def addMonths (y m k : Nat) : Nat × Nat :=
  let t := (m - 1) + k
  (y + t / 12, t % 12 + 1)

/-- Add `k` calendar months to a date, clamping the day-of-month to the target
month length (spec 4.1/4.3 clamping rule). -/
def addMonthsClamped (d : Date) (k : Nat) : Date :=
  let p := addMonths d.year d.month k
  ⟨p.1, p.2, clampDay d.day p.1 p.2⟩

/-- The day after `d`. -/
def nextDay (d : Date) : Date :=
  if d.day < daysInMonth d.year d.month then ⟨d.year, d.month, d.day + 1⟩
  else if d.month < 12 then ⟨d.year, d.month + 1, 1⟩
  else ⟨d.year + 1, 1, 1⟩

/-- Add `n` days to a date. -/
def addDays : Date → Nat → Date
  | d, 0 => d
  | d, n + 1 => addDays (nextDay d) n

/-- The day before `d`. -/
def prevDay (d : Date) : Date :=
  if 1 < d.day then ⟨d.year, d.month, d.day - 1⟩
  else if 1 < d.month then ⟨d.year, d.month - 1, daysInMonth d.year (d.month - 1)⟩
  else ⟨d.year - 1, 12, 31⟩

/-- Number of leap years in `1..y`. -/
def leapYearsUpTo (y : Nat) : Nat :=
  y / 4 - y / 100 + y / 400

/-- Days in all years strictly before year `y`. -/
def daysBeforeYear (y : Nat) : Nat :=
  365 * (y - 1) + leapYearsUpTo (y - 1)

/-- Days in all months of year `y` strictly before month `m`. -/
def daysBeforeMonth (y m : Nat) : Nat :=
  ((List.range (m - 1)).map (fun i => daysInMonth y (i + 1))).sum

/-- Linear day number of a date (rata die), used to compare dates and to
measure day distances. -/
def toRataDie (d : Date) : Nat :=
  daysBeforeYear d.year + daysBeforeMonth d.year d.month + d.day

/-- Zero-based month index on the time line. -/
def monthIndex (d : Date) : Nat :=
  12 * d.year + (d.month - 1)

/-- Recurrence frequencies of an income schedule. -/
inductive Frequency
  | weekly
  | biweekly
  | semimonthly
  | monthly
  | quarterly
  | annual
deriving DecidableEq

/-- Modelled from the spec: the Recurrence Calculator `advance` (spec 4.3);
the backend implementation is not under src/. Weekly/biweekly add 7/14 days;
monthly/quarterly/annual add 1/3/12 calendar months clamping the day-of-month;
semimonthly moves to the later anchor of the same month when there is one and
otherwise wraps to `day1` of the next month, each anchor clamped to the actual
month length. -/
def advance (freq : Frequency) (day1 day2 : Nat) (d : Date) : Date :=
  match freq with
  | .weekly => addDays d 7
  | .biweekly => addDays d 14
  | .monthly => addMonthsClamped d 1
  | .quarterly => addMonthsClamped d 3
  | .annual => addMonthsClamped d 12
  | .semimonthly =>
    if d.day < clampDay day2 d.year d.month then
      ⟨d.year, d.month, clampDay day2 d.year d.month⟩
    else
      let p := addMonths d.year d.month 1
      ⟨p.1, p.2, clampDay day1 p.1 p.2⟩

/-- The concrete date of the anchor day `day` in month `m` of year `y`
(anchor days are clamped to short months). -/
def anchorDate (day y m : Nat) : Date :=
  ⟨y, m, clampDay day y m⟩

/-- Budget period types. -/
inductive PeriodType
  | weekly
  | monthly
  | quarterly
  | annual
deriving DecidableEq

/-- Calendar-month step of a month-based period type (0 for weekly, which is
day-based). -/
def PeriodType.stepMonths : PeriodType → Nat
  | .weekly => 0
  | .monthly => 1
  | .quarterly => 3
  | .annual => 12

/-- A budget record as the engine sees it. -/
structure Budget where
  id : Nat
  period_type : PeriodType
  start_date : Date
  amount : ℤ
  allow_rollover : Bool
  rollover_amount : ℤ
  category_ids : List Nat
  account_scope : Option Nat
  is_active : Bool
deriving DecidableEq

/-- Start date of the budget's period number `i` (period 0 starts at
`start_date`); month-based periods clamp the anchor day (spec 4.1). -/
def periodStart (b : Budget) (i : Nat) : Date :=
  if b.period_type = .weekly then addDays b.start_date (7 * i)
  else addMonthsClamped b.start_date (b.period_type.stepMonths * i)

/-- Last included day of the budget's period number `i` (closed-closed
periods, spec 3). -/
def periodEnd (b : Budget) (i : Nat) : Date :=
  prevDay (periodStart b (i + 1))

/-- Number of complete periods strictly before the period containing `ref`
(assuming `ref` is not before `start_date`). -/
def numCompletePeriods (b : Budget) (ref : Date) : Nat :=
  if b.period_type = .weekly then
    (toRataDie ref - toRataDie b.start_date) / 7
  else
    let k0 := (monthIndex ref - monthIndex b.start_date) / b.period_type.stepMonths
    if toRataDie (periodStart b k0) ≤ toRataDie ref then k0 else k0 - 1

/-- The injected spending-aggregation capability (spec 2, 6): category set,
account scope and a closed date range, fallibly returning total spending. -/
def SpendingLookup : Type :=
  List Nat → Option Nat → Date → Date → Except String ℤ

/-- Engine error taxonomy (spec 7). -/
inductive EngineError
  | configurationError
  | prematureReference
  | aggregationFailure (msg : String)
deriving DecidableEq

/-- Sum of `max 0 (amount - spent_i)` over the first `n` periods, threading
the fallible spending lookup. -/
def sumUnspent (b : Budget) (lookup : SpendingLookup) : Nat → Except String ℤ
  | 0 => .ok 0
  | n + 1 => do
    let rest ← sumUnspent b lookup n
    let spent ← lookup b.category_ids b.account_scope (periodStart b n) (periodEnd b n)
    return rest + max 0 (b.amount - spent)

/-- Modelled from the spec: `process_budget_rollover` of backend/app/api/budgets.py,
which is not under src/. The rejection of inactive or non-rollover budgets and
the premature-reference check follow spec 4.2/7; the non-empty-category path is
the full recomputation of spec 4.2; the empty-category early return
`rollover_amount = amount + rollover_amount` is quoted verbatim in
src/BUGFIX-rollover-routes.md. -/
def process_budget_rollover (b : Budget) (ref : Date) (lookup : SpendingLookup) :
    Except EngineError Budget :=
  if b.is_active && b.allow_rollover then
    if b.category_ids.isEmpty then
      .ok { b with rollover_amount := b.amount + b.rollover_amount }
    else if toRataDie ref < toRataDie b.start_date then
      .error .prematureReference
    else
      match sumUnspent b lookup (numCompletePeriods b ref) with
      | .ok r => .ok { b with rollover_amount := r }
      | .error msg => .error (.aggregationFailure msg)
  else
    .error .configurationError

/-- Result of the process-all-rollovers batch, as documented in the rollover
system doc: processed count, processed ids, per-item errors. -/
structure BatchResult where
  processed : Nat
  budget_ids : List Nat
  errors : List (Nat × EngineError)
deriving DecidableEq

/-- Modelled from the spec: `process_all_rollovers` of backend/app/api/budgets.py,
which is not under src/. Eligible budgets (active with rollover allowed) are
processed independently; per spec 5/7 a failing budget is recorded in the
per-item error list and processing continues; budgets with no linked
categories are skipped, as quoted in src/BUGFIX-rollover-routes.md. -/
def process_all_rollovers (budgets : List Budget) (ref : Date) (lookup : SpendingLookup) :
    List Budget × BatchResult :=
  match budgets with
  | [] => ([], ⟨0, [], []⟩)
  | b :: rest =>
    let acc := process_all_rollovers rest ref lookup
    if b.is_active && b.allow_rollover then
      if b.category_ids.isEmpty then
        (b :: acc.1, acc.2)
      else
        match process_budget_rollover b ref lookup with
        | .ok newB => (newB :: acc.1, ⟨acc.2.processed + 1, b.id :: acc.2.budget_ids, acc.2.errors⟩)
        | .error e => (b :: acc.1, ⟨acc.2.processed, acc.2.budget_ids, (b.id, e) :: acc.2.errors⟩)
    else
      (b :: acc.1, acc.2)

/-- The rollover formula exactly as the claim states it: the sum over all
complete periods strictly before the period containing the reference date of
`max 0 (amount - spent_i)`, each period measured against the nominal amount
only. -/
def specRolloverSum (b : Budget) (ref : Date) (spent : Nat → ℤ) : ℤ :=
  ((List.range (numCompletePeriods b ref)).map (fun i => max 0 (b.amount - spent i))).sum

/-- Whether a budget is attempted by the batch processor: active, rollover
allowed, and at least one linked category. -/
def attemptedInBatch (b : Budget) : Bool :=
  b.is_active && b.allow_rollover && !b.category_ids.isEmpty

/-- Whether an `Except` is a success. -/
def exceptOk {ε α : Type} : Except ε α → Bool
  | .ok _ => true
  | .error _ => false

/-- An income schedule record. -/
structure IncomeSchedule where
  id : Nat
  frequency : Frequency
  start_date : Date
  next_expected_date : Date
  semimonthly_day1 : Option Nat
  semimonthly_day2 : Option Nat
  end_date : Option Date
  amount : ℤ
  is_active : Bool
deriving DecidableEq

/-- Parameters supplied when creating an income schedule. -/
structure IncomeScheduleCreate where
  frequency : Frequency
  start_date : Date
  semimonthly_day1 : Option Nat
  semimonthly_day2 : Option Nat
  end_date : Option Date
  amount : ℤ
deriving DecidableEq

/-- Modelled from the spec: income-schedule creation with its validation
(spec 7); the backend create endpoint is not under src/. Semimonthly anchor
days must be present, within 1–31 and distinct, otherwise a
ConfigurationError is surfaced at creation time; accepted values are stored
unchanged. -/
def create_income_schedule (sid : Nat) (p : IncomeScheduleCreate) :
    Except EngineError IncomeSchedule :=
  if p.frequency = .semimonthly then
    match p.semimonthly_day1, p.semimonthly_day2 with
    | some d1, some d2 =>
      if 1 ≤ d1 ∧ d1 ≤ 31 ∧ 1 ≤ d2 ∧ d2 ≤ 31 ∧ d1 ≠ d2 then
        .ok ⟨sid, p.frequency, p.start_date, p.start_date, p.semimonthly_day1,
             p.semimonthly_day2, p.end_date, p.amount, true⟩
      else
        .error .configurationError
    | _, _ => .error .configurationError
  else
    .ok ⟨sid, p.frequency, p.start_date, p.start_date, p.semimonthly_day1,
         p.semimonthly_day2, p.end_date, p.amount, true⟩

/-- One application of the Recurrence Calculator for a schedule. -/
def scheduleAdvance (s : IncomeSchedule) (d : Date) : Date :=
  advance s.frequency (s.semimonthly_day1.getD 1) (s.semimonthly_day2.getD 15) d

/-- Whether date `d` is at or after the schedule's optional end date
(occurrences there are not projected, spec 3). -/
def scheduleEnded (s : IncomeSchedule) (d : Date) : Bool :=
  match s.end_date with
  | some e => toRataDie e ≤ toRataDie d
  | none => false

/-- An occurrence produced by the Schedule Projector. -/
structure UpcomingOccurrence where
  schedule_id : Nat
  date : Date
  amount : ℤ
  days_until : Int
deriving DecidableEq

/-- Build the occurrence record for date `d` relative to the reference day
number `refR`. -/
def mkOccurrence (s : IncomeSchedule) (refR : Nat) (d : Date) : UpcomingOccurrence :=
  ⟨s.id, d, s.amount, (toRataDie d : Int) - (refR : Int)⟩

/-- Walk the schedule's occurrences from `d`, collecting those inside the
projection window `[refR, refR + horizon]`, stopping past the window, at the
schedule's end date, or when the fuel runs out. -/
def collectOccurrences (s : IncomeSchedule) (refR horizon : Nat) :
    Nat → Date → List UpcomingOccurrence
  | 0, _ => []
  | fuel + 1, d =>
    if scheduleEnded s d then []
    else if refR + horizon < toRataDie d then []
    else
      (if refR ≤ toRataDie d then [mkOccurrence s refR d] else []) ++
        collectOccurrences s refR horizon fuel (scheduleAdvance s d)

/-- Modelled from the spec: per-schedule projection (spec 4.4); the backend
projection endpoint is not under src/. An overdue `next_expected_date` is
still reported with a negative `days_until`; in-window occurrences are
collected by walking `advance` from `next_expected_date`. -/
def projectOne (s : IncomeSchedule) (ref : Date) (horizon : Nat) :
    List UpcomingOccurrence :=
  (if toRataDie s.next_expected_date < toRataDie ref ∧ ¬ scheduleEnded s s.next_expected_date then
      [mkOccurrence s (toRataDie ref) s.next_expected_date]
    else []) ++
    collectOccurrences s (toRataDie ref) horizon
      (toRataDie ref + horizon + 2 - toRataDie s.next_expected_date) s.next_expected_date

/-- Display order of occurrences: date ascending, ties broken by schedule id
(spec 4.4). -/
def occBefore (a b : UpcomingOccurrence) : Prop :=
  toRataDie a.date < toRataDie b.date ∨
    (toRataDie a.date = toRataDie b.date ∧ a.schedule_id ≤ b.schedule_id)

instance : DecidableRel occBefore := fun a b => by
  unfold occBefore
  infer_instance

/-- Modelled from the spec: the Schedule Projector `project` (spec 4.4); the
backend implementation is not under src/. Active schedules are projected and
the occurrences sorted by date then schedule id. -/
def project (schedules : List IncomeSchedule) (ref : Date) (horizon : Nat) :
    List UpcomingOccurrence :=
  ((schedules.filter (fun s => s.is_active)).flatMap
    (fun s => projectOne s ref horizon)).insertionSort occBefore

/-- A spending lookup that always succeeds with zero spending. -/
def zeroLookup : SpendingLookup :=
  fun _ _ _ _ => .ok 0

/-- The spending history of the documented rollover example: 400 spent in the
first month, 450 in the second, 300 in the third. -/
def exampleLookup : SpendingLookup := fun _ _ s _ =>
  if s.month = 1 then .ok 400 else if s.month = 2 then .ok 450 else .ok 300

/-- Per-period spending of the documented rollover example, indexed by period
number. -/
def exampleSpent (i : Nat) : ℤ :=
  if i = 0 then 400 else if i = 1 then 450 else 300

/-- The budget of the documented rollover example: $500 a month with one
linked category, started at the anchor date. -/
def exampleBudget : Budget :=
  ⟨1, .monthly, ⟨1, 1, 1⟩, 500, true, 0, [7], none, true⟩

/-- A spending lookup reporting constant overspending of 500. -/
def overspendLookup : SpendingLookup :=
  fun _ _ _ _ => .ok 500

deriving instance DecidableEq for Except

/-! ## Theorems -/

/-- Helper: `sumUnspent` over `n` periods whose lookups all succeed equals
the plain sum of the per-period positive leftovers. -/
theorem sumUnspent_eq_sum (b : Budget) (lookup : SpendingLookup) (spent : Nat → ℤ) :
    ∀ n, (∀ i, i < n →
        lookup b.category_ids b.account_scope (periodStart b i) (periodEnd b i) = .ok (spent i)) →
      sumUnspent b lookup n = .ok (((List.range n).map (fun i => max 0 (b.amount - spent i))).sum)
  | 0, _ => by simp [sumUnspent]
  | n + 1, hlk => by
    have ih := sumUnspent_eq_sum b lookup spent n (fun i hi => hlk i (hi.trans (Nat.lt_succ_self n)))
    rw [sumUnspent, ih, hlk n (Nat.lt_succ_self n)]
    simp [Bind.bind, Except.bind, Pure.pure, Except.pure, List.range_succ]

/-- Helper: a successful `sumUnspent` is nonnegative, since every period
contributes `max 0 _`. -/
theorem sumUnspent_nonneg (b : Budget) (lookup : SpendingLookup) :
    ∀ n r, sumUnspent b lookup n = .ok r → 0 ≤ r
  | 0, r, h => by
    simp [sumUnspent] at h
    exact le_of_eq h
  | n + 1, r, h => by
    rw [sumUnspent] at h
    cases hrest : sumUnspent b lookup n with
    | error e => rw [hrest] at h; simp [Bind.bind, Except.bind] at h
    | ok rest =>
      rw [hrest] at h
      cases hsp : lookup b.category_ids b.account_scope (periodStart b n) (periodEnd b n) with
      | error e => rw [hsp] at h; simp [Bind.bind, Except.bind] at h
      | ok spent =>
        rw [hsp] at h
        simp [Bind.bind, Except.bind, Pure.pure, Except.pure] at h
        subst h
        exact add_nonneg (sumUnspent_nonneg b lookup n rest hrest) (le_max_left 0 _)

/-- C6: for a monthly schedule whose day-of-month exceeds the length of the
next month, `advance` clamps to the last valid day of the target month rather
than overflowing into the following month; in particular, advancing from
January 31 returns February 28 (29 in a leap year), never a date in March. -/
theorem monthly_advance_clamps (d1 d2 y m day : Nat)
    (h : daysInMonth (addMonths y m 1).1 (addMonths y m 1).2 < day) :
    advance .monthly d1 d2 ⟨y, m, day⟩ =
      ⟨(addMonths y m 1).1, (addMonths y m 1).2,
        daysInMonth (addMonths y m 1).1 (addMonths y m 1).2⟩
    ∧ ∀ z : Nat, advance .monthly d1 d2 ⟨z, 1, 31⟩ =
        ⟨z, 2, if isLeapYear z then 29 else 28⟩ := by
  constructor
  · show addMonthsClamped ⟨y, m, day⟩ 1 = _
    simp only [addMonthsClamped, clampDay]
    exact congrArg (Date.mk _ _) (Nat.min_eq_right h.le)
  · intro z
    show addMonthsClamped ⟨z, 1, 31⟩ 1 = _
    cases hz : isLeapYear z <;>
      simp [addMonthsClamped, addMonths, clampDay, daysInMonth, hz]

/-- Witness for C6 at January 31 of year 1 (a non-leap year). -/
theorem monthly_advance_clamps_wit :
    advance .monthly 1 15 ⟨1, 1, 31⟩ =
      ⟨(addMonths 1 1 1).1, (addMonths 1 1 1).2,
        daysInMonth (addMonths 1 1 1).1 (addMonths 1 1 1).2⟩
    ∧ ∀ z : Nat, advance .monthly 1 15 ⟨z, 1, 31⟩ =
        ⟨z, 2, if isLeapYear z then 29 else 28⟩ :=
  monthly_advance_clamps 1 15 1 1 31 (by decide)

/-- C5 counterexample: with the valid anchor pair day1 = 30 < day2 = 31 and
month M = February of year 1, both anchors clamp to February 28, so the first
advance from the day1 occurrence already wraps to March 30 and the second
advance lands on March 31 — not the day1 occurrence (March 30) of month M+1,
refuting the claim as stated. -/
theorem semimonthly_double_advance_cex :
    1 ≤ 30 ∧ 30 < 31 ∧ 31 ≤ 31 ∧
    advance .semimonthly 30 31 (advance .semimonthly 30 31 (anchorDate 30 1 2))
      ≠ anchorDate 30 1 3 := by decide

/-- C5 (amended): for valid semimonthly anchors day1 < day2 that remain
distinct after clamping to month M's length, advancing from the day1
occurrence of month M reaches the day2 occurrence of month M, and advancing
again reaches the day1 occurrence of month M+1. -/
theorem semimonthly_double_advance (day1 day2 y m : Nat)
    (_h12 : day1 < day2)
    (hcl : clampDay day1 y m < clampDay day2 y m) :
    advance .semimonthly day1 day2 (anchorDate day1 y m) = anchorDate day2 y m
    ∧ advance .semimonthly day1 day2 (advance .semimonthly day1 day2 (anchorDate day1 y m))
      = anchorDate day1 (addMonths y m 1).1 (addMonths y m 1).2 := by
  have h1 : advance .semimonthly day1 day2 (anchorDate day1 y m) = anchorDate day2 y m := by
    simp only [advance, anchorDate]
    rw [if_pos hcl]
  refine ⟨h1, ?_⟩
  rw [h1]
  simp only [advance, anchorDate]
  rw [if_neg (lt_irrefl _)]

/-- Witness for C5 (amended) at day1 = 1, day2 = 15, January of year 1: the
documented scenario (1st → 15th of the same month → 1st of the next month). -/
theorem semimonthly_double_advance_wit :
    advance .semimonthly 1 15 (anchorDate 1 1 1) = anchorDate 15 1 1
    ∧ advance .semimonthly 1 15 (advance .semimonthly 1 15 (anchorDate 1 1 1))
      = anchorDate 1 (addMonths 1 1 1).1 (addMonths 1 1 1).2 :=
  semimonthly_double_advance 1 15 1 1 (by decide) (by decide)

/-- C1 counterexample: the claim quantifies over every budget with rollover
allowed, but for an eligible $500/month budget with empty category_ids and
three complete elapsed periods (zero recorded spending), the individual
rollover endpoint quoted in BUGFIX-rollover-routes.md returns
amount + rollover_amount = 500, while the claimed per-period sum is 1500. -/
theorem process_rollover_spec_sum_cex :
    (process_budget_rollover ⟨1, .monthly, ⟨1, 1, 1⟩, 500, true, 0, [], none, true⟩
        ⟨1, 4, 1⟩ zeroLookup).toOption.map Budget.rollover_amount = some 500
    ∧ specRolloverSum ⟨1, .monthly, ⟨1, 1, 1⟩, 500, true, 0, [], none, true⟩
        ⟨1, 4, 1⟩ (fun _ => 0) = 1500
    ∧ (500 : ℤ) ≠ 1500 := by decide

/-- C1 (amended): for every active budget with rollover allowed and at least
one linked category, with a reference date not before the start date and a
spending lookup that succeeds on every complete period, processing rollover
overwrites rollover_amount with the sum over all complete periods strictly
before the period containing the reference date of
`max 0 (amount - spent_i)`, each period measured against the nominal amount
only. -/
theorem process_rollover_spec_sum (b : Budget) (ref : Date) (lookup : SpendingLookup)
    (spent : Nat → ℤ)
    (hact : b.is_active = true) (hroll : b.allow_rollover = true)
    (hcat : b.category_ids ≠ [])
    (href : ¬ toRataDie ref < toRataDie b.start_date)
    (hlk : ∀ i, i < numCompletePeriods b ref →
      lookup b.category_ids b.account_scope (periodStart b i) (periodEnd b i) = .ok (spent i)) :
    process_budget_rollover b ref lookup
      = .ok { b with rollover_amount := specRolloverSum b ref spent } := by
  have hb : (b.is_active && b.allow_rollover) = true := by rw [hact, hroll]; rfl
  have hemp : ¬ (b.category_ids.isEmpty = true) := by
    cases hci : b.category_ids with
    | nil => exact absurd hci hcat
    | cons x xs => simp [hci]
  unfold process_budget_rollover
  rw [if_pos hb, if_neg hemp, if_neg href,
    sumUnspent_eq_sum b lookup spent (numCompletePeriods b ref) hlk]
  rfl

/-- Witness for C1 (amended): the documented example — $500/month budget
started three months before the reference date, with $400, $450, $300 spent
in the three complete months — yields a rollover of $350. -/
theorem process_rollover_spec_sum_wit :
    process_budget_rollover exampleBudget ⟨1, 4, 1⟩ exampleLookup
      = .ok { exampleBudget with
                rollover_amount := specRolloverSum exampleBudget ⟨1, 4, 1⟩ exampleSpent }
    ∧ specRolloverSum exampleBudget ⟨1, 4, 1⟩ exampleSpent = 350 :=
  ⟨process_rollover_spec_sum exampleBudget ⟨1, 4, 1⟩ exampleLookup exampleSpent
      rfl rfl (by decide) (by decide) (by decide),
    by decide⟩

/-- C4: the rollover_amount written by processing a budget (with nonnegative
amount and nonnegative prior rollover_amount, the data-model invariant) is
never negative: overspent periods contribute zero, never a negative offset. -/
theorem rollover_amount_nonneg (b : Budget) (ref : Date) (lookup : SpendingLookup) (c : Budget)
    (hamt : 0 ≤ b.amount) (hprev : 0 ≤ b.rollover_amount)
    (h : process_budget_rollover b ref lookup = .ok c) :
    0 ≤ c.rollover_amount := by
  unfold process_budget_rollover at h
  by_cases hb : (b.is_active && b.allow_rollover) = true
  · rw [if_pos hb] at h
    by_cases hemp : b.category_ids.isEmpty = true
    · rw [if_pos hemp] at h
      obtain rfl : _ = c := Except.ok.inj h
      exact add_nonneg hamt hprev
    · rw [if_neg hemp] at h
      by_cases href : toRataDie ref < toRataDie b.start_date
      · rw [if_pos href] at h; exact absurd h (by simp)
      · rw [if_neg href] at h
        cases hs : sumUnspent b lookup (numCompletePeriods b ref) with
        | error e => rw [hs] at h; exact absurd h (by simp)
        | ok r =>
          rw [hs] at h
          obtain rfl : _ = c := Except.ok.inj h
          exact sumUnspent_nonneg b lookup (numCompletePeriods b ref) r hs
  · rw [if_neg hb] at h
    exact absurd h (by simp)

/-- Witness for C4: a $100/month budget with prior rollover 5 and 500 spent
in its single complete period gets rollover 0, which is nonnegative. -/
theorem rollover_amount_nonneg_wit :
    0 ≤ (⟨6, .monthly, ⟨1, 1, 1⟩, 100, true, 5, [7], none, true⟩ : Budget).amount
    ∧ 0 ≤ (⟨6, .monthly, ⟨1, 1, 1⟩, 100, true, 5, [7], none, true⟩ : Budget).rollover_amount
    ∧ 0 ≤ (⟨6, .monthly, ⟨1, 1, 1⟩, 100, true, 0, [7], none, true⟩ : Budget).rollover_amount :=
  ⟨by decide, by decide,
    rollover_amount_nonneg ⟨6, .monthly, ⟨1, 1, 1⟩, 100, true, 5, [7], none, true⟩
      ⟨1, 2, 1⟩ overspendLookup ⟨6, .monthly, ⟨1, 1, 1⟩, 100, true, 0, [7], none, true⟩
      (by decide) (by decide) (by decide)⟩

/-- Helper: `sumUnspent` does not read the budget's `rollover_amount`. -/
theorem sumUnspent_set_rollover (b : Budget) (q : ℤ) (lookup : SpendingLookup) :
    ∀ n, sumUnspent { b with rollover_amount := q } lookup n = sumUnspent b lookup n
  | 0 => rfl
  | n + 1 => by
    rw [sumUnspent, sumUnspent, sumUnspent_set_rollover b q lookup n]
    rfl

/-- C2 counterexample: for an eligible $200 budget with empty category_ids,
the first processing (the BUGFIX-quoted path) writes rollover_amount 200 and
the second, reading the value written by the first, writes 400, so two calls
with the same reference date do not yield the same rollover_amount. -/
theorem process_rollover_idempotent_cex :
    ((process_budget_rollover ⟨2, .monthly, ⟨1, 1, 1⟩, 200, true, 0, [], none, true⟩
          ⟨1, 3, 1⟩ zeroLookup).bind
        (fun b1 => (process_budget_rollover b1 ⟨1, 3, 1⟩ zeroLookup).map
          (fun b2 => (b1.rollover_amount, b2.rollover_amount))))
      = .ok (200, 400)
    ∧ (400 : ℤ) ≠ 200 := by decide

/-- C2 (amended): for every budget with at least one linked category,
processing rollover twice in succession with the same reference date and the
same spending history yields the same rollover_amount both times, because the
non-empty-category path fully recomputes the value without reading the stored
rollover_amount. -/
theorem process_rollover_idempotent (b : Budget) (ref : Date) (lookup : SpendingLookup)
    (b1 b2 : Budget) (hcat : b.category_ids ≠ [])
    (h1 : process_budget_rollover b ref lookup = .ok b1)
    (h2 : process_budget_rollover b1 ref lookup = .ok b2) :
    b2.rollover_amount = b1.rollover_amount := by
  have hemp : ¬ (b.category_ids.isEmpty = true) := by
    cases hci : b.category_ids with
    | nil => exact absurd hci hcat
    | cons x xs => simp [hci]
  unfold process_budget_rollover at h1
  by_cases hb : (b.is_active && b.allow_rollover) = true
  · rw [if_pos hb, if_neg hemp] at h1
    by_cases href : toRataDie ref < toRataDie b.start_date
    · rw [if_pos href] at h1; exact absurd h1 (by simp)
    · rw [if_neg href] at h1
      cases hs : sumUnspent b lookup (numCompletePeriods b ref) with
      | error e => rw [hs] at h1; exact absurd h1 (by simp)
      | ok r =>
        rw [hs] at h1
        obtain rfl : _ = b1 := Except.ok.inj h1
        unfold process_budget_rollover at h2
        rw [if_pos hb, if_neg hemp, if_neg href] at h2
        have hs1 : sumUnspent { b with rollover_amount := r } lookup
            (numCompletePeriods { b with rollover_amount := r } ref) = .ok r :=
          (sumUnspent_set_rollover b r lookup _).trans hs
        rw [hs1] at h2
        obtain rfl : _ = b2 := Except.ok.inj h2
        rfl
  · rw [if_neg hb] at h1; exact absurd h1 (by simp)

/-- Witness for C2 (amended): a $500/month budget with one linked category
and two complete zero-spending periods gets rollover 1000 on the first call
and again 1000 on the second. -/
theorem process_rollover_idempotent_wit :
    (⟨3, .monthly, ⟨1, 1, 1⟩, 500, true, 1000, [7], none, true⟩ : Budget).rollover_amount
      = (⟨3, .monthly, ⟨1, 1, 1⟩, 500, true, 1000, [7], none, true⟩ : Budget).rollover_amount :=
  process_rollover_idempotent ⟨3, .monthly, ⟨1, 1, 1⟩, 500, true, 0, [7], none, true⟩
    ⟨1, 3, 1⟩ zeroLookup
    ⟨3, .monthly, ⟨1, 1, 1⟩, 500, true, 1000, [7], none, true⟩
    ⟨3, .monthly, ⟨1, 1, 1⟩, 500, true, 1000, [7], none, true⟩
    (by decide) (by decide) (by decide)

/-- C3 counterexample: a $200/month budget with empty category_ids and two
complete elapsed periods does not get rollover 400 either way: processed
individually it gets amount + rollover_amount = 200, and in the batch it is
skipped entirely (rollover stays 0 and its id is not reported). -/
theorem empty_categories_full_rollover_cex :
    (process_budget_rollover ⟨4, .monthly, ⟨1, 1, 1⟩, 200, true, 0, [], none, true⟩
        ⟨1, 3, 5⟩ zeroLookup).toOption.map Budget.rollover_amount = some 200
    ∧ (process_all_rollovers [⟨4, .monthly, ⟨1, 1, 1⟩, 200, true, 0, [], none, true⟩]
        ⟨1, 3, 5⟩ zeroLookup).1.map Budget.rollover_amount = [0]
    ∧ (process_all_rollovers [⟨4, .monthly, ⟨1, 1, 1⟩, 200, true, 0, [], none, true⟩]
        ⟨1, 3, 5⟩ zeroLookup).2.budget_ids = []
    ∧ (200 : ℤ) ≠ 400 ∧ (0 : ℤ) ≠ 400 := by decide

/-- C3 (amended): an active rollover-enabled budget with empty category_ids
is not credited the full amount of every elapsed period; instead, individual
processing adds the budget amount once to the stored rollover_amount
(independently of how many periods elapsed), and batch processing skips the
budget entirely. -/
theorem empty_categories_rollover (b : Budget) (ref : Date) (lookup : SpendingLookup)
    (hact : b.is_active = true) (hroll : b.allow_rollover = true)
    (hcat : b.category_ids = []) :
    process_budget_rollover b ref lookup
      = .ok { b with rollover_amount := b.amount + b.rollover_amount }
    ∧ process_all_rollovers [b] ref lookup = ([b], ⟨0, [], []⟩) := by
  have hb : (b.is_active && b.allow_rollover) = true := by rw [hact, hroll]; rfl
  have hemp : b.category_ids.isEmpty = true := by rw [hcat]; rfl
  constructor
  · unfold process_budget_rollover
    rw [if_pos hb, if_pos hemp]
  · show (if (b.is_active && b.allow_rollover) = true then _ else _) = _
    rw [if_pos hb, if_pos hemp]
    rfl

/-- Witness for C3 (amended): a $200 budget with prior rollover 50 and four
elapsed months gets 250 individually and is skipped by the batch. -/
theorem empty_categories_rollover_wit :
    process_budget_rollover ⟨5, .monthly, ⟨1, 1, 1⟩, 200, true, 50, [], none, true⟩
        ⟨1, 5, 1⟩ zeroLookup
      = .ok { (⟨5, .monthly, ⟨1, 1, 1⟩, 200, true, 50, [], none, true⟩ : Budget) with
                rollover_amount :=
                  (⟨5, .monthly, ⟨1, 1, 1⟩, 200, true, 50, [], none, true⟩ : Budget).amount
                    + (⟨5, .monthly, ⟨1, 1, 1⟩, 200, true, 50, [], none, true⟩ : Budget).rollover_amount }
    ∧ process_all_rollovers [⟨5, .monthly, ⟨1, 1, 1⟩, 200, true, 50, [], none, true⟩]
        ⟨1, 5, 1⟩ zeroLookup
      = ([⟨5, .monthly, ⟨1, 1, 1⟩, 200, true, 50, [], none, true⟩], ⟨0, [], []⟩) :=
  empty_categories_rollover ⟨5, .monthly, ⟨1, 1, 1⟩, 200, true, 50, [], none, true⟩
    ⟨1, 5, 1⟩ zeroLookup rfl rfl rfl

/-- C7: creating a semimonthly income schedule with an anchor day outside
1–31 or with day1 = day2 fails with a ConfigurationError at creation time,
and a successful creation stores the submitted anchor days unchanged (never
silently coerced) and only when they are valid. -/
theorem create_semimonthly_validation (sid : Nat) (p : IncomeScheduleCreate)
    (hf : p.frequency = .semimonthly) :
    (∀ d1 d2, p.semimonthly_day1 = some d1 → p.semimonthly_day2 = some d2 →
      (d1 < 1 ∨ 31 < d1 ∨ d2 < 1 ∨ 31 < d2 ∨ d1 = d2) →
      create_income_schedule sid p = .error .configurationError)
    ∧ (∀ s, create_income_schedule sid p = .ok s →
        s.semimonthly_day1 = p.semimonthly_day1 ∧ s.semimonthly_day2 = p.semimonthly_day2
        ∧ ∃ d1 d2, p.semimonthly_day1 = some d1 ∧ p.semimonthly_day2 = some d2
            ∧ 1 ≤ d1 ∧ d1 ≤ 31 ∧ 1 ≤ d2 ∧ d2 ≤ 31 ∧ d1 ≠ d2) := by
  constructor
  · intro d1 d2 h1 h2 hbad
    unfold create_income_schedule
    rw [if_pos hf, h1, h2]
    exact if_neg (by omega)
  · intro s hs
    unfold create_income_schedule at hs
    rw [if_pos hf] at hs
    cases h1 : p.semimonthly_day1 with
    | none =>
      rw [h1] at hs
      exact Except.noConfusion hs
    | some d1 =>
      cases h2 : p.semimonthly_day2 with
      | none =>
        rw [h1, h2] at hs
        exact Except.noConfusion hs
      | some d2 =>
        rw [h1, h2] at hs
        have hs2 : (if 1 ≤ d1 ∧ d1 ≤ 31 ∧ 1 ≤ d2 ∧ d2 ≤ 31 ∧ d1 ≠ d2 then
              (.ok ⟨sid, p.frequency, p.start_date, p.start_date, some d1, some d2,
                p.end_date, p.amount, true⟩ : Except EngineError IncomeSchedule)
            else .error .configurationError) = .ok s := hs
        by_cases hv : 1 ≤ d1 ∧ d1 ≤ 31 ∧ 1 ≤ d2 ∧ d2 ≤ 31 ∧ d1 ≠ d2
        · rw [if_pos hv] at hs2
          obtain rfl : _ = s := Except.ok.inj hs2
          exact ⟨rfl, rfl, d1, d2, rfl, rfl, hv.1, hv.2.1, hv.2.2.1, hv.2.2.2.1, hv.2.2.2.2⟩
        · rw [if_neg hv] at hs2
          exact Except.noConfusion hs2

/-- Witness for C7: an out-of-range first anchor day (0) with frequency
semimonthly is rejected with a ConfigurationError at creation time. -/
theorem create_semimonthly_validation_wit :
    create_income_schedule 1 ⟨.semimonthly, ⟨1, 1, 1⟩, some 0, some 15, none, 100⟩
      = .error .configurationError :=
  (create_semimonthly_validation 1
      ⟨.semimonthly, ⟨1, 1, 1⟩, some 0, some 15, none, 100⟩ rfl).1
    0 15 rfl rfl (by decide)

/-- C8: batch rollover processing isolates per-budget failures: the reported
ids are exactly the attempted budgets whose processing succeeded (in order),
the per-item error list holds exactly the attempted budgets whose processing
failed, and the processed count matches the successes — so one budget's
failure never prevents another budget's success from being processed and
reported. -/
theorem process_all_partial_failure (budgets : List Budget) (ref : Date)
    (lookup : SpendingLookup) :
    (process_all_rollovers budgets ref lookup).2.budget_ids
      = (budgets.filter (fun b => attemptedInBatch b
            && exceptOk (process_budget_rollover b ref lookup))).map Budget.id
    ∧ (process_all_rollovers budgets ref lookup).2.errors.map Prod.fst
      = (budgets.filter (fun b => attemptedInBatch b
            && !exceptOk (process_budget_rollover b ref lookup))).map Budget.id
    ∧ (process_all_rollovers budgets ref lookup).2.processed
      = (budgets.filter (fun b => attemptedInBatch b
            && exceptOk (process_budget_rollover b ref lookup))).length := by
  induction budgets with
  | nil => exact ⟨rfl, rfl, rfl⟩
  | cons b rest ih =>
    obtain ⟨ih1, ih2, ih3⟩ := ih
    by_cases hb : (b.is_active && b.allow_rollover) = true
    · by_cases hemp : b.category_ids.isEmpty = true
      · have hatt : attemptedInBatch b = false := by
          simp [attemptedInBatch, hemp]
        simp [process_all_rollovers, hb, hemp, hatt, List.filter_cons, ih1, ih2, ih3]
      · have hatt : attemptedInBatch b = true := by
          simp [attemptedInBatch, hemp]
          exact Bool.and_eq_true_iff.mp hb
        cases hp : process_budget_rollover b ref lookup with
        | ok nb =>
          simp [process_all_rollovers, hb, hemp, hp, hatt, exceptOk,
            List.filter_cons, ih1, ih2, ih3]
        | error e =>
          simp [process_all_rollovers, hb, hemp, hp, hatt, exceptOk,
            List.filter_cons, ih1, ih2, ih3]
    · have hatt : attemptedInBatch b = false := by
        simp [attemptedInBatch]
        intro ha hr
        rw [ha, hr] at hb
        exact absurd rfl hb
      simp [process_all_rollovers, hb, hatt, List.filter_cons, ih1, ih2, ih3]

/-- Helper: batch processing distributes over list concatenation: budgets are
handled independently and the results concatenate. -/
theorem process_all_rollovers_append (l1 l2 : List Budget) (ref : Date)
    (lookup : SpendingLookup) :
    process_all_rollovers (l1 ++ l2) ref lookup
      = ((process_all_rollovers l1 ref lookup).1 ++ (process_all_rollovers l2 ref lookup).1,
         ⟨(process_all_rollovers l1 ref lookup).2.processed
            + (process_all_rollovers l2 ref lookup).2.processed,
          (process_all_rollovers l1 ref lookup).2.budget_ids
            ++ (process_all_rollovers l2 ref lookup).2.budget_ids,
          (process_all_rollovers l1 ref lookup).2.errors
            ++ (process_all_rollovers l2 ref lookup).2.errors⟩) := by
  induction l1 with
  | nil => simp [process_all_rollovers]
  | cons b rest ih =>
    by_cases hb : (b.is_active && b.allow_rollover) = true
    · by_cases hemp : b.category_ids.isEmpty = true
      · simp [process_all_rollovers, hb, hemp, ih]
      · cases hp : process_budget_rollover b ref lookup with
        | ok nb =>
          simp [process_all_rollovers, hb, hemp, hp, ih, Nat.add_right_comm]
        | error e =>
          simp [process_all_rollovers, hb, hemp, hp, ih]
    · simp [process_all_rollovers, hb, ih]

/-- C10: in batch processing, an active rollover-enabled budget with an empty
set of linked categories is skipped wherever it sits in the list — its record
passes through unchanged and it contributes neither an id nor a processed
count — whereas processing the same budget individually overwrites its
rollover_amount with amount + rollover_amount. -/
theorem process_all_skips_empty_categories (l1 l2 : List Budget) (b : Budget)
    (ref : Date) (lookup : SpendingLookup)
    (hact : b.is_active = true) (hroll : b.allow_rollover = true)
    (hcat : b.category_ids = []) :
    (process_all_rollovers (l1 ++ b :: l2) ref lookup).1
      = (process_all_rollovers l1 ref lookup).1 ++ b :: (process_all_rollovers l2 ref lookup).1
    ∧ (process_all_rollovers (l1 ++ b :: l2) ref lookup).2.budget_ids
      = (process_all_rollovers l1 ref lookup).2.budget_ids
          ++ (process_all_rollovers l2 ref lookup).2.budget_ids
    ∧ (process_all_rollovers (l1 ++ b :: l2) ref lookup).2.processed
      = (process_all_rollovers l1 ref lookup).2.processed
          + (process_all_rollovers l2 ref lookup).2.processed
    ∧ process_budget_rollover b ref lookup
      = .ok { b with rollover_amount := b.amount + b.rollover_amount } := by
  have hb : (b.is_active && b.allow_rollover) = true := by rw [hact, hroll]; rfl
  have hemp : b.category_ids.isEmpty = true := by rw [hcat]; rfl
  have hcons : process_all_rollovers (b :: l2) ref lookup
      = (b :: (process_all_rollovers l2 ref lookup).1,
         (process_all_rollovers l2 ref lookup).2) := by
    show (if (b.is_active && b.allow_rollover) = true then _ else _) = _
    rw [if_pos hb, if_pos hemp]
  rw [process_all_rollovers_append l1 (b :: l2) ref lookup, hcons]
  refine ⟨rfl, rfl, rfl, ?_⟩
  unfold process_budget_rollover
  rw [if_pos hb, if_pos hemp]

/-- Witness for C10: an empty-category budget between two category-linked
budgets passes through the batch unchanged while individual processing
updates it. -/
theorem process_all_skips_empty_categories_wit :
    (process_all_rollovers
        ([⟨7, .monthly, ⟨1, 1, 1⟩, 100, true, 0, [3], none, true⟩]
          ++ ⟨8, .monthly, ⟨1, 1, 1⟩, 200, true, 0, [], none, true⟩
            :: [⟨9, .monthly, ⟨1, 1, 1⟩, 300, true, 0, [4], none, true⟩])
        ⟨1, 2, 1⟩ zeroLookup).1
      = (process_all_rollovers [⟨7, .monthly, ⟨1, 1, 1⟩, 100, true, 0, [3], none, true⟩]
          ⟨1, 2, 1⟩ zeroLookup).1
        ++ ⟨8, .monthly, ⟨1, 1, 1⟩, 200, true, 0, [], none, true⟩
          :: (process_all_rollovers [⟨9, .monthly, ⟨1, 1, 1⟩, 300, true, 0, [4], none, true⟩]
               ⟨1, 2, 1⟩ zeroLookup).1
    ∧ (process_all_rollovers
        ([⟨7, .monthly, ⟨1, 1, 1⟩, 100, true, 0, [3], none, true⟩]
          ++ ⟨8, .monthly, ⟨1, 1, 1⟩, 200, true, 0, [], none, true⟩
            :: [⟨9, .monthly, ⟨1, 1, 1⟩, 300, true, 0, [4], none, true⟩])
        ⟨1, 2, 1⟩ zeroLookup).2.budget_ids
      = (process_all_rollovers [⟨7, .monthly, ⟨1, 1, 1⟩, 100, true, 0, [3], none, true⟩]
          ⟨1, 2, 1⟩ zeroLookup).2.budget_ids
        ++ (process_all_rollovers [⟨9, .monthly, ⟨1, 1, 1⟩, 300, true, 0, [4], none, true⟩]
             ⟨1, 2, 1⟩ zeroLookup).2.budget_ids
    ∧ (process_all_rollovers
        ([⟨7, .monthly, ⟨1, 1, 1⟩, 100, true, 0, [3], none, true⟩]
          ++ ⟨8, .monthly, ⟨1, 1, 1⟩, 200, true, 0, [], none, true⟩
            :: [⟨9, .monthly, ⟨1, 1, 1⟩, 300, true, 0, [4], none, true⟩])
        ⟨1, 2, 1⟩ zeroLookup).2.processed
      = (process_all_rollovers [⟨7, .monthly, ⟨1, 1, 1⟩, 100, true, 0, [3], none, true⟩]
          ⟨1, 2, 1⟩ zeroLookup).2.processed
        + (process_all_rollovers [⟨9, .monthly, ⟨1, 1, 1⟩, 300, true, 0, [4], none, true⟩]
            ⟨1, 2, 1⟩ zeroLookup).2.processed
    ∧ process_budget_rollover ⟨8, .monthly, ⟨1, 1, 1⟩, 200, true, 0, [], none, true⟩
        ⟨1, 2, 1⟩ zeroLookup
      = .ok { (⟨8, .monthly, ⟨1, 1, 1⟩, 200, true, 0, [], none, true⟩ : Budget) with
                rollover_amount :=
                  (⟨8, .monthly, ⟨1, 1, 1⟩, 200, true, 0, [], none, true⟩ : Budget).amount
                    + (⟨8, .monthly, ⟨1, 1, 1⟩, 200, true, 0, [], none, true⟩ : Budget).rollover_amount } :=
  process_all_skips_empty_categories
    [⟨7, .monthly, ⟨1, 1, 1⟩, 100, true, 0, [3], none, true⟩]
    [⟨9, .monthly, ⟨1, 1, 1⟩, 300, true, 0, [4], none, true⟩]
    ⟨8, .monthly, ⟨1, 1, 1⟩, 200, true, 0, [], none, true⟩
    ⟨1, 2, 1⟩ zeroLookup rfl rfl rfl

/-- Helper: every occurrence emitted by the in-window walk has
`days_until ≤ horizon`, since the walk stops at the first date past the
window. -/
theorem collect_days_le (s : IncomeSchedule) (refR horizon : Nat) :
    ∀ fuel d occ, occ ∈ collectOccurrences s refR horizon fuel d →
      occ.days_until ≤ (horizon : Int)
  | 0, d, occ, h => absurd h (List.not_mem_nil occ)
  | fuel + 1, d, occ, h => by
    rw [collectOccurrences] at h
    by_cases h1 : scheduleEnded s d = true
    · rw [if_pos h1] at h
      exact absurd h (List.not_mem_nil occ)
    · rw [if_neg h1] at h
      by_cases h2 : refR + horizon < toRataDie d
      · rw [if_pos h2] at h
        exact absurd h (List.not_mem_nil occ)
      · rw [if_neg h2] at h
        rcases List.mem_append.mp h with hl | hr
        · by_cases h3 : refR ≤ toRataDie d
          · rw [if_pos h3] at hl
            obtain rfl : occ = _ := List.mem_singleton.mp hl
            simp only [mkOccurrence]
            omega
          · rw [if_neg h3] at hl
            exact absurd hl (List.not_mem_nil occ)
        · exact collect_days_le s refR horizon fuel (scheduleAdvance s d) occ hr

/-- Helper: every occurrence projected for one schedule respects the
horizon; an overdue `next_expected_date` has negative `days_until`. -/
theorem projectOne_days_le (s : IncomeSchedule) (ref : Date) (horizon : Nat)
    (occ : UpcomingOccurrence) (h : occ ∈ projectOne s ref horizon) :
    occ.days_until ≤ (horizon : Int) := by
  unfold projectOne at h
  rcases List.mem_append.mp h with hl | hr
  · by_cases hc : toRataDie s.next_expected_date < toRataDie ref
        ∧ ¬ scheduleEnded s s.next_expected_date = true
    · rw [if_pos hc] at hl
      obtain rfl : occ = _ := List.mem_singleton.mp hl
      have := hc.1
      simp only [mkOccurrence]
      omega
    · rw [if_neg hc] at hl
      exact absurd hl (List.not_mem_nil occ)
  · exact collect_days_le s (toRataDie ref) horizon _ _ occ hr

/-- C9: no occurrence returned by `project` has `days_until` greater than
the horizon: every returned date is at most `reference_date + horizon_days`
days away. -/
theorem project_horizon_bounded (schedules : List IncomeSchedule) (ref : Date)
    (horizon : Nat) (occ : UpcomingOccurrence)
    (h : occ ∈ project schedules ref horizon) :
    occ.days_until ≤ (horizon : Int) := by
  unfold project at h
  rw [List.mem_insertionSort] at h
  obtain ⟨s, _, hocc⟩ := List.mem_flatMap.mp h
  exact projectOne_days_le s ref horizon occ hocc

/-- Witness for C9: a weekly schedule due two days after the reference date,
projected over a 30-day horizon, yields an occurrence with days_until 2,
which is at most 30. -/
theorem project_horizon_bounded_wit :
    (⟨1, ⟨1, 1, 3⟩, 100, 2⟩ : UpcomingOccurrence) ∈
        project [⟨1, .weekly, ⟨1, 1, 3⟩, ⟨1, 1, 3⟩, none, none, none, 100, true⟩] ⟨1, 1, 1⟩ 30
    ∧ (⟨1, ⟨1, 1, 3⟩, 100, 2⟩ : UpcomingOccurrence).days_until ≤ (30 : Int) :=
  ⟨by decide,
    project_horizon_bounded [⟨1, .weekly, ⟨1, 1, 3⟩, ⟨1, 1, 3⟩, none, none, none, 100, true⟩]
      ⟨1, 1, 1⟩ 30 ⟨1, ⟨1, 1, 3⟩, 100, 2⟩ (by decide)⟩

end BudgetingApp
